import Mathlib

/-!
Verification of the mediaforge transcode/resolver core against its
natural-language specification.  The Python sources under
`src/processing/ffmpeg/conversion.py`, `src/processing/ffmpeg/ffprobe.py`
and `src/utils/scandiscord.py` are shallowly embedded below: external
probe results (`ffprobe` subprocess output) are supplied by an
environment record, temp-file reservation and encoder invocations are
explicit state passing, and fallible paths return `Except`.
-/

namespace Mediaforge

/-- The media kinds from `processing.mediatype` (IMAGE, VIDEO, AUDIO, GIF),
plus a catch-all for anything else (the `else: raise` arms). -/
inductive MediaKind where
  | IMAGE
  | VIDEO
  | AUDIO
  | GIF
  | UNKNOWN
deriving DecidableEq, Repr

open MediaKind

/-- A managed temp-file handle (`utils.tempfiles` object): a unique id
standing for the path, the extension it was reserved with, and the
`lock_codec` attribute (the spec calls it `codecLocked`). -/
structure FFile where
  fid : Nat
  ext : String
  lock_codec : Bool
deriving DecidableEq, Repr

/-- The dict returned by `get_vcodec` / `get_acodec`:
`{"codec_name": ..., "codec_long_name": ...}` (first matching stream). -/
structure CodecInfo where
  codec_name : String
  codec_long_name : String
deriving DecidableEq, Repr

/-- Probe environment: what the external `ffprobe` invocations report for a
given file (keyed by file id; file contents are write-once so this is a
fixed function within a process). `vcodecInfo`/`acodecInfo` model
`get_vcodec`/`get_acodec` (None when the stream is absent), `frame_rate`
models `get_frame_rate`, `gif_loop_count` the container loop count, and
`framecount` the `count_frames` packet count. -/
structure Env where
  mediatype : Nat → MediaKind
  vcodecInfo : Nat → Option CodecInfo
  acodecInfo : Nat → Option CodecInfo
  frame_rate : Nat → ℚ
  gif_loop_count : Nat → Int
  framecount : Nat → Int

/-- One external encoder (`ffmpeg`) invocation, recording the decision-relevant
arguments of each call site in `conversion.py` / `ffprobe.py`:
* `gifEncode loop capped` — the `videotogif` call (`-loop` value, and whether
  the `fps=fps=50` filter was prepended because the source fps exceeded 50);
* `videoEncode copyV copyA` — the `video_reencode` call (`-c:v copy` vs the
  libx264 re-encode arguments, `-c:a copy` vs aac);
* `audioEncode copyA` — the `audio_reencode` call;
* `imageEncode fmt copy` — the `mediatoimage` call (`-c:v copy` when the
  source codec already equals the requested image format);
* `forceImage` / `forceVideo` / `forceAudio` — the three fixed-argument
  calls inside `forcereencode`;
* `frameExtract n` — the `frame_n` call (`select=eq(n,N)` filter). -/
inductive Invocation where
  | gifEncode (loop : Int) (fpsCapped : Bool)
  | videoEncode (copyV : Bool) (copyA : Bool)
  | audioEncode (copyA : Bool)
  | imageEncode (fmt : String) (copy : Bool)
  | forceImage
  | forceVideo
  | forceAudio
  | frameExtract (n : Int)
deriving DecidableEq, Repr

/-- Process state: the next fresh temp-file id the ledger will hand out, and
the log of encoder invocations run so far. -/
structure St where
  nextId : Nat
  calls : List Invocation
deriving DecidableEq, Repr

/-- `utils.tempfiles.reserve_tempfile(ext)`: allocates a fresh handle with the
given extension; `lock_codec` starts out false. -/
def reserve_tempfile (ext : String) (s : St) : FFile × St :=
  (⟨s.nextId, ext, false⟩, ⟨s.nextId + 1, s.calls⟩)

/-- `run_command("ffmpeg", ...)`: records the encoder invocation. -/
def run_ffmpeg (inv : Invocation) (s : St) : St :=
  ⟨s.nextId, s.calls ++ [inv]⟩

/-- `va_codecs(filename)`: the ffprobe call extracting the `codec_name` of the
first video stream and of the first audio stream (as a pair of optional
plain strings). -/
def va_codecs (env : Env) (fid : Nat) : Option String × Option String :=
  ((env.vcodecInfo fid).map CodecInfo.codec_name,
   (env.acodecInfo fid).map CodecInfo.codec_name)

/-- Python comparison of the dict returned by `get_acodec` (or `None`) with a
string, as written in `audio_reencode` (`acodec == "aac"`): a dict or `None`
never equals a `str`, so this comparison is always false in the source. -/
def pyDictEqStr (_acodec : Option CodecInfo) (_target : String) : Bool :=
  false

/-- `conversion.videotogif`: pass through when the video codec is already
`gif`; otherwise reserve a `.gif` temp file and run the palette encoder,
capping fps at 50 when the source fps exceeds 50 and passing the source
loop count.  (Errors when `get_vcodec` returns `None`, where the Python
subscript would raise.) -/
def videotogif (env : Env) (video : FFile) (s : St) : Except String (FFile × St) :=
  match env.vcodecInfo video.fid with
  | none => .error "TypeError: get_vcodec returned None"
  | some ci =>
    if ci.codec_name = "gif" then
      .ok (video, s)
    else
      let p := reserve_tempfile "gif" s
      let fps := env.frame_rate video.fid
      let lc := env.gif_loop_count video.fid
      .ok (p.1, run_ffmpeg (.gifEncode lc (decide (50 < fps))) p.2)

/-- `conversion.video_reencode`: asserts the media type is VIDEO or GIF, then
always reserves a `.mp4` temp file and runs one encoder invocation, with
`-c:v copy` when the existing video codec is `h264` and `-c:a copy` when the
existing audio codec is `aac`. -/
def video_reencode (env : Env) (video : FFile) (s : St) : Except String (FFile × St) :=
  if env.mediatype video.fid = VIDEO ∨ env.mediatype video.fid = GIF then
    let codecs := va_codecs env video.fid
    let copyV := codecs.1 = some "h264"
    let copyA := codecs.2 = some "aac"
    let p := reserve_tempfile "mp4" s
    .ok (p.1, run_ffmpeg (.videoEncode copyV copyA) p.2)
  else
    .error "AssertionError: file passed to reencode() is not VIDEO or GIF"

/-- `conversion.audio_reencode`: always reserves a `.m4a` temp file and runs
one encoder invocation.  The source compares the `get_acodec` dict itself
against the string `aac`, which is never true in Python, so the
stream-copy branch is dead and the audio is always re-encoded. -/
def audio_reencode (env : Env) (audio : FFile) (s : St) : FFile × St :=
  let copyA := pyDictEqStr (env.acodecInfo audio.fid) "aac"
  let p := reserve_tempfile "m4a" s
  (p.1, run_ffmpeg (.audioEncode copyA) p.2)

/-- `conversion.mediatoimage`: one-frame extraction into the requested image
format, stream-copying when the source video codec already equals that
format.  (Errors when `get_vcodec` returns `None`.) -/
def mediatoimage (env : Env) (media : FFile) (imagetype : String) (s : St) :
    Except String (FFile × St) :=
  match env.vcodecInfo media.fid with
  | none => .error "TypeError: get_vcodec returned None"
  | some ci =>
    let p := reserve_tempfile imagetype s
    .ok (p.1, run_ffmpeg (.imageEncode imagetype (decide (ci.codec_name = imagetype))) p.2)

/-- `conversion.mediatopng`: `mediatoimage` at format `png`. -/
def mediatopng (env : Env) (media : FFile) (s : St) : Except String (FFile × St) :=
  mediatoimage env media "png" s

/-- `conversion.allreencode` (the PLAYBACK_NORMALIZE operation): early return
of the input when `lock_codec` is set, then dispatch on the media type. -/
def allreencode (env : Env) (file : FFile) (s : St) : Except String (FFile × St) :=
  if file.lock_codec then
    .ok (file, s)
  else
    match env.mediatype file.fid with
    | IMAGE => mediatopng env file s
    | VIDEO => video_reencode env file s
    | AUDIO => .ok (audio_reencode env file s)
    | GIF => videotogif env file s
    | UNKNOWN => .error "cannot be re-encoded"

/-- `conversion.forcereencode` (the FORCE_NORMALIZE operation): dispatch on
the media type with fixed-argument encoder calls for IMAGE / VIDEO / AUDIO,
and delegation to `videotogif` for GIF.  Note: no `lock_codec` check. -/
def forcereencode (env : Env) (file : FFile) (s : St) : Except String (FFile × St) :=
  match env.mediatype file.fid with
  | IMAGE =>
    let p := reserve_tempfile "png" s
    .ok (p.1, run_ffmpeg .forceImage p.2)
  | VIDEO =>
    let p := reserve_tempfile "mp4" s
    .ok (p.1, run_ffmpeg .forceVideo p.2)
  | AUDIO =>
    let p := reserve_tempfile "m4a" s
    .ok (p.1, run_ffmpeg .forceAudio p.2)
  | GIF => videotogif env file s
  | UNKNOWN => .error "cannot be re-encoded"

/-! ### ffprobe.py: duration, frame rate, resolution, frame extraction -/

/-- One frame-control record of the APNG frame table
(`apng.APNG.open(filename).frames`): the per-frame `delay`, and the
`delay_den` denominator, which the library may leave unset. -/
structure APNGFrame where
  delay : ℚ
  delay_den : Option ℚ
deriving DecidableEq, Repr

/-- The Python expression `control.delay_den or 100`: a missing (`None`) or
zero denominator is falsy and is replaced by 100. -/
def denOr100 (d : Option ℚ) : ℚ :=
  match d with
  | none => 100
  | some x => if x = 0 then 100 else x

/-- Per-file probe data for `get_duration` / `get_frame_rate`:
the codec name of the first video stream, the `r_frame_rate` value the
generic probe reports, whether the generic duration probe prints `N/A`
(`durationNA`), the numeric duration it prints otherwise, and the APNG
frame table of the container itself. -/
structure FProbe where
  codec_name : String
  r_frame_rate : ℚ
  durationNA : Bool
  durationVal : ℚ
  frames : List APNGFrame
deriving DecidableEq, Repr

/-- The helper `ffprobe._get_apng_duration`: sum over the container frame
table of `delay / (delay_den or 100)`. -/
def get_apng_duration (p : FProbe) : ℚ :=
  (p.frames.map (fun c => c.delay / denOr100 c.delay_den)).sum

/-- The helper `ffprobe._get_apng_framerate`: frame count divided by the
summed delay (computed over the same frame table). -/
def get_apng_framerate (p : FProbe) : ℚ :=
  let total_delay := (p.frames.map (fun c => c.delay / denOr100 c.delay_den)).sum
  (p.frames.length : ℚ) / total_delay

/-- `ffprobe.get_duration`: returns the APNG frame-table sum whenever the
generic probe printed `N/A` (there is no codec check on this path), and
the parsed numeric probe output otherwise. -/
def get_duration (p : FProbe) : ℚ :=
  if p.durationNA then get_apng_duration p else p.durationVal

/-- `ffprobe.get_frame_rate`: takes the APNG path whenever the codec name is
`apng` (there is no availability check on this path), and otherwise parses
the generic `r_frame_rate` value. -/
def get_frame_rate (p : FProbe) : ℚ :=
  if p.codec_name = "apng" then get_apng_framerate p else p.r_frame_rate

/-- Python float modulo (`a % b`), whose sign follows the divisor:
`a - b * floor(a / b)`. -/
def pyMod (a b : ℚ) : ℚ :=
  a - b * (⌊a / b⌋ : ℚ)

/-- Probe data for `get_resolution`: the raw stream `width`/`height`, and the
optional `rotate` stream tag (parsed by `float(...)` in the source). -/
structure ResProbe where
  width : Int
  height : Int
  rotate : Option ℚ
deriving DecidableEq, Repr

/-- `ffprobe.get_resolution`: reports `[width, height]`, swapped when a
`rotate` tag is present with `rot % 90 == 0 and not rot % 180 == 0`. -/
def get_resolution (p : ResProbe) : List Int :=
  match p.rotate with
  | none => [p.width, p.height]
  | some rot =>
    if pyMod rot 90 = 0 ∧ ¬ pyMod rot 180 = 0 then [p.height, p.width]
    else [p.width, p.height]

/-- `ffprobe.count_frames`: the packet count the external probe reports. -/
def count_frames (env : Env) (video : FFile) : Int :=
  env.framecount video.fid

/-- `ffprobe.frame_n`: raises when `not -1 <= n < framecount`; maps `n = -1`
to the last frame index; then reserves a `.mkv` temp file and runs one
single-frame extraction. -/
def frame_n (env : Env) (video : FFile) (n : Int) (s : St) : Except String (FFile × St) :=
  let framecount := count_frames env video
  if ¬ (-1 ≤ n ∧ n < framecount) then
    .error ("Frame " ++ toString n ++ " does not exist.")
  else
    let k := if n = -1 then framecount - 1 else n
    let p := reserve_tempfile "mkv" s
    .ok (p.1, run_ffmpeg (.frameExtract k) p.2)

/-! ### functools.lru_cache applied to an async def

`is_apng`, `get_frame_rate` and `get_duration` are `async def` functions
decorated with `@lru_cache`.  In Python the decorator memoizes the value the
call returns, which for an `async def` is the *coroutine object*, not the
probe result: the first call-and-await runs the body once and exhausts the
coroutine; a later call with the same filename gets the same, already
awaited, coroutine back from the cache and awaiting it raises
`RuntimeError: cannot reuse already awaited coroutine`. -/

/-- Cache state of one lru-cached async probe function: for each cached
filename, whether its cached coroutine has already been awaited, plus the
number of external probe invocations actually run. -/
structure CacheSt where
  cached : List (String × Bool)
  probes : Nat
deriving DecidableEq, Repr

/-- Lookup of a filename in the coroutine cache. -/
def cacheLookup (f : String) (l : List (String × Bool)) : Option Bool :=
  (l.find? (fun e => e.1 = f)).map (fun e => e.2)

/-- Mark the cached coroutine of a filename as awaited. -/
def cacheMarkAwaited (f : String) (l : List (String × Bool)) : List (String × Bool) :=
  l.map (fun e => if e.1 = f then (e.1, true) else e)

/-- Outcome of awaiting one call of an lru-cached async probe: the probe
value, or the `RuntimeError` raised on re-awaiting an exhausted coroutine. -/
inductive AwaitRes where
  | ok (v : ℚ)
  | reuseError
deriving DecidableEq, Repr

/-- One call-and-await of an lru-cached async probe (`await get_duration(f)`
and likewise `is_apng` / `get_frame_rate`), with `probeVal` the value the
body would compute: a cache miss creates, caches and awaits a fresh
coroutine (running the external probe once); a cache hit returns the cached
coroutine, and awaiting it again raises. -/
def cachedAsyncCall (probeVal : String → ℚ) (f : String) (s : CacheSt) :
    AwaitRes × CacheSt :=
  match cacheLookup f s.cached with
  | some true => (.reuseError, s)
  | some false => (.ok (probeVal f), ⟨cacheMarkAwaited f s.cached, s.probes + 1⟩)
  | none => (.ok (probeVal f), ⟨(f, true) :: s.cached, s.probes + 1⟩)

/-! ### scandiscord.py: handlemessagesave and imagesearch -/

/-- A discord attachment: its snowflake id (discord equality compares ids),
its CDN url, and its filename. -/
structure Attachment where
  aid : Nat
  url : String
  filename : String
deriving DecidableEq, Repr

/-- The discord sticker format enumeration (the source only tests for
`lottie`). -/
inductive StickerFormat where
  | png
  | apngFmt
  | lottie
  | gifFmt
deriving DecidableEq, Repr

/-- A discord sticker: its url and format. -/
structure Sticker where
  url : String
  fmt : StickerFormat
deriving DecidableEq, Repr

/-- A discord embed: its `type` string (`gifv`, `image`, `video`, `audio`,
or anything else), its url, its thumbnail url, and — for `gifv` embeds —
the gif id a successful `tenor_url_regex.fullmatch` on the url extracts
(`none` when the regex does not match). -/
structure Embed where
  etype : String
  url : String
  thumbnailUrl : String
  tenorId : Option String
deriving DecidableEq, Repr

/-- Outcome of the tenor lookup (`fetch(...)` awaited by `asyncio.gather`
with `return_exceptions=True`): the response string parsed to a dict with a
`results` entry holding an mp4 url, a response without `results`, or a
raised exception (returned as an `Exception` object). -/
inductive TenorResp where
  | success (mp4url : String)
  | noresults
  | failure
deriving DecidableEq, Repr

/-- Network environment for the resolver: the tenor lookup outcome per gif
id, and whether the awaited `contentlength(url)` result is truthy (a raised
exception is returned as an `Exception` object by the gather, which is also
truthy, so it is folded into `true` here). -/
structure SEnv where
  tenorFetch : String → TenorResp
  lenTruthy : String → Bool

/-- A discord message: snowflake id, whether it is a thread starter message,
the resolved referenced message if any (covering `m.reference` and
`m.reference.resolved` both being present), attachments, stickers, embeds. -/
inductive Message where
  | mk : Nat → Bool → Option Message → List Attachment → List Sticker → List Embed → Message

def Message.mid : Message → Nat
  | .mk i _ _ _ _ _ => i

def Message.isThreadStarter : Message → Bool
  | .mk _ t _ _ _ _ => t

def Message.refResolved : Message → Option Message
  | .mk _ _ r _ _ _ => r

def Message.attachments : Message → List Attachment
  | .mk _ _ _ a _ _ => a

def Message.stickers : Message → List Sticker
  | .mk _ _ _ _ st _ => st

def Message.embeds : Message → List Embed
  | .mk _ _ _ _ _ e => e

/-- The thread-starter substitution at the top of `handlemessagesave`
(`m = m.reference.resolved`); a thread starter message always carries a
resolved reference on discord (the Python would raise otherwise). -/
def resolveThread (m : Message) : Message :=
  if m.isThreadStarter then m.refResolved.getD m else m

/-- Python `att in ignoreatts`: discord attachment equality compares ids. -/
def attIn (att : Attachment) (l : List Attachment) : Bool :=
  l.any (fun ia => ia.aid = att.aid)

/-- `txt_file_regex.match(filename)` with pattern `.*\.txt$` and IGNORECASE:
true for filenames ending in `.txt` in any case (checked over the character
list, lowercased). -/
def isTxt (filename : String) : Bool :=
  (filename.data.map Char.toLower).reverse.take 4 == ['t', 'x', 't', '.']

/-- The awaited result of one task of the per-message gather: a tenor fetch
outcome, or a content-length truthiness check. -/
inductive TaskOutcome where
  | tenor (r : TenorResp)
  | check (truthy : Bool)
deriving DecidableEq, Repr

/-- The task list built by the first loop over `m.embeds`: a `gifv` embed
whose url matches the tenor regex contributes one tenor fetch; an `image`
embed contributes a length check of its url and one of its thumbnail url;
a `video` or `audio` embed contributes one length check of its url; other
embed types contribute nothing. -/
def embedResults (env : SEnv) (embeds : List Embed) : List TaskOutcome :=
  embeds.flatMap (fun e =>
    if e.etype = "gifv" then
      match e.tenorId with
      | some gid => [.tenor (env.tenorFetch gid)]
      | none => []
    else if e.etype = "image" then
      [.check (env.lenTruthy e.url), .check (env.lenTruthy e.thumbnailUrl)]
    else if e.etype = "video" ∨ e.etype = "audio" then
      [.check (env.lenTruthy e.url)]
    else [])

/-- The second loop (`for result in results`).  A string result is parsed as
the tenor response and yields the resolved mp4 url when it has `results`;
any other truthy result (a passing length check, or an `Exception` object
from a failed tenor fetch) appends `embed.url` — where `embed` is the loop
variable left over from the first loop, i.e. the url of the *last* embed of
the message, whichever task succeeded. -/
def processResults (lastUrl : String) (rs : List TaskOutcome) : List String :=
  rs.filterMap (fun r =>
    match r with
    | .tenor (.success mp4url) => some mp4url
    | .tenor .noresults => none
    | .tenor .failure => some lastUrl
    | .check true => some lastUrl
    | .check false => none)

/-- The embed section of `handlemessagesave` (guarded by `if m.embeds:`). -/
def embedCandidates (env : SEnv) (m : Message) : List String :=
  match m.embeds.getLast? with
  | none => []
  | some lastE => processResults lastE.url (embedResults env m.embeds)

/-- The attachment section of `handlemessagesave`: guarded by
`m.attachments and (ignoreatts is None or any(att not in ignoreatts for att
in m.attachments))`, and extending with the urls of every non-`.txt`
attachment (the comprehension never consults `ignoreatts` again). -/
def attachmentCandidates (m : Message) (ignoreatts : Option (List Attachment)) : List String :=
  let ignoreCheck :=
    match ignoreatts with
    | none => true
    | some ig => m.attachments.any (fun att => ! attIn att ig)
  if (! m.attachments.isEmpty) && ignoreCheck then
    (m.attachments.filter (fun att => ! isTxt att.filename)).map Attachment.url
  else []

/-- The sticker section of `handlemessagesave`: urls of every non-lottie
sticker. -/
def stickerCandidates (m : Message) : List String :=
  (m.stickers.filter (fun st => st.fmt ≠ StickerFormat.lottie)).map Sticker.url

/-- `scandiscord.handlemessagesave`: thread-starter substitution, then the
embed section, then the attachment section, then the sticker section,
accumulated in that order into `detectedfiles`. -/
def handlemessagesave (env : SEnv) (m0 : Message) (ignoreatts : Option (List Attachment)) :
    List String :=
  let m := resolveThread m0
  embedCandidates env m ++ attachmentCandidates m ignoreatts ++ stickerCandidates m

/-- The channel-history loop of `scandiscord.imagesearch`: walk the (at most
50) history messages newest-first, skipping already seen ids, extending the
accumulated list per message, returning the truncated list as soon as
`nargs` is reached, and otherwise `False` (modelled `none`) exactly when
the accumulated list ends empty. -/
def searchHistory (env : SEnv) (msgs : List Message) (seen : List Nat)
    (outfiles : List String) (nargs : Nat) : Option (List String) :=
  match msgs with
  | [] => if outfiles.isEmpty then none else some outfiles
  | m :: rest =>
    if m.mid ∈ seen then
      searchHistory env rest seen outfiles nargs
    else
      let outfiles2 := outfiles ++ handlemessagesave env m none
      if nargs ≤ outfiles2.length then some (outfiles2.take nargs)
      else searchHistory env rest (m.mid :: seen) outfiles2 nargs

/-- A command context: the triggering message and the channel history before
it, newest-first (the source asks for at most 50 of it). -/
structure Ctx where
  message : Message
  history : List Message

/-- `scandiscord.imagesearch`: the triggering message first (with the
`ignore` list), then its resolved reply target (without it), then the
bounded history walk; each step returns the first `nargs` candidates as
soon as that many have accumulated, and the walk returns `False` (`none`)
when it ends with zero candidates. -/
def imagesearch (env : SEnv) (ctx : Ctx) (nargs : Nat)
    (ignore : Option (List Attachment)) : Option (List String) :=
  let seen := [ctx.message.mid]
  let outfiles := handlemessagesave env ctx.message ignore
  if nargs ≤ outfiles.length then some (outfiles.take nargs)
  else
    match ctx.message.refResolved with
    | some refMsg =>
      let seen2 := refMsg.mid :: seen
      let outfiles2 := outfiles ++ handlemessagesave env refMsg none
      if nargs ≤ outfiles2.length then some (outfiles2.take nargs)
      else searchHistory env (ctx.history.take 50) seen2 outfiles2 nargs
    | none => searchHistory env (ctx.history.take 50) seen outfiles nargs

/-- Every candidate the full bounded walk would yield, with the same
seen-id bookkeeping as `imagesearch` but without the early stop: used to
state "zero candidates were found in the entire bounded walk". -/
def collectHistory (env : SEnv) (msgs : List Message) (seen : List Nat) : List String :=
  match msgs with
  | [] => []
  | m :: rest =>
    if m.mid ∈ seen then collectHistory env rest seen
    else handlemessagesave env m none ++ collectHistory env rest (m.mid :: seen)

/-- All candidates of the entire bounded walk of `imagesearch`. -/
def allCandidates (env : SEnv) (ctx : Ctx) (ignore : Option (List Attachment)) :
    List String :=
  handlemessagesave env ctx.message ignore ++
    match ctx.message.refResolved with
    | some refMsg =>
      handlemessagesave env refMsg none ++
        collectHistory env (ctx.history.take 50) [refMsg.mid, ctx.message.mid]
    | none => collectHistory env (ctx.history.take 50) [ctx.message.mid]

/-! ### Claims C1 - C3 -/

/-- Claim C1, counterexample: a VIDEO file with `lock_codec = true` passed to
FORCE_NORMALIZE (`forcereencode`) is NOT returned unchanged — the function
never consults `lock_codec`: it reserves a fresh `.mp4` handle and runs one
encoder invocation, contradicting the claim that both operations return the
input handle unchanged for codec-locked files. -/
theorem C1_counterexample :
    forcereencode
        ⟨fun _ => .VIDEO, fun _ => some ⟨"h264", "H.264"⟩, fun _ => some ⟨"aac", "AAC"⟩,
          fun _ => 30, fun _ => 0, fun _ => 10⟩
        ⟨0, "mp4", true⟩ ⟨1, []⟩ =
      .ok (⟨1, "mp4", false⟩, ⟨2, [.forceVideo]⟩) ∧
    FFile.lock_codec ⟨0, "mp4", true⟩ = true ∧
    (⟨1, "mp4", false⟩ : FFile) ≠ (⟨0, "mp4", true⟩ : FFile) :=
  ⟨rfl, rfl, by decide⟩

/-- Claim C1 as amended: the `lock_codec` pass-through holds for
PLAYBACK_NORMALIZE (`allreencode`) for every media kind — the early return
precedes the kind dispatch — but FORCE_NORMALIZE (`forcereencode`) ignores
the flag: for IMAGE, VIDEO and AUDIO it always reserves a fresh handle and
runs one encoder invocation even on a codec-locked file. -/
theorem C1_lock_passthrough_only_allreencode (env : Env) (f : FFile) (s : St)
    (hlock : f.lock_codec = true) :
    allreencode env f s = .ok (f, s) ∧
    (env.mediatype f.fid = IMAGE ∨ env.mediatype f.fid = VIDEO ∨
        env.mediatype f.fid = AUDIO →
      ∃ out s2, forcereencode env f s = .ok (out, s2) ∧ out.fid = s.nextId ∧
        out.lock_codec = false ∧ s2.calls.length = s.calls.length + 1) := by
  constructor
  · simp [allreencode, hlock]
  · rintro (h | h | h)
    · exact ⟨⟨s.nextId, "png", false⟩, ⟨s.nextId + 1, s.calls ++ [.forceImage]⟩,
        by simp [forcereencode, h, reserve_tempfile, run_ffmpeg], rfl, rfl, by simp⟩
    · exact ⟨⟨s.nextId, "mp4", false⟩, ⟨s.nextId + 1, s.calls ++ [.forceVideo]⟩,
        by simp [forcereencode, h, reserve_tempfile, run_ffmpeg], rfl, rfl, by simp⟩
    · exact ⟨⟨s.nextId, "m4a", false⟩, ⟨s.nextId + 1, s.calls ++ [.forceAudio]⟩,
        by simp [forcereencode, h, reserve_tempfile, run_ffmpeg], rfl, rfl, by simp⟩

/-- Claim C1 witness: the amended theorem applied to a concrete codec-locked
GIF-extension file — PLAYBACK_NORMALIZE passes it through unchanged. -/
theorem C1_lock_passthrough_witness :
    allreencode
        ⟨fun _ => .VIDEO, fun _ => some ⟨"h264", "H.264"⟩, fun _ => some ⟨"aac", "AAC"⟩,
          fun _ => 30, fun _ => 0, fun _ => 10⟩
        ⟨0, "apng", true⟩ ⟨1, []⟩ =
      .ok (⟨0, "apng", true⟩, ⟨1, []⟩) :=
  (C1_lock_passthrough_only_allreencode _ _ _ rfl).1

/-- Claim C2, counterexample: a VIDEO file already in the canonical codecs
(H.264 video, AAC audio), not codec-locked, passed to PLAYBACK_NORMALIZE —
the code still reserves a fresh `.mp4` temp file and runs one encoder
invocation (with both streams stream-copied), contradicting the claim that
the identical input handle is returned with no reservation and no encoder
invocation. -/
theorem C2_counterexample :
    allreencode
        ⟨fun _ => .VIDEO, fun _ => some ⟨"h264", "H.264"⟩, fun _ => some ⟨"aac", "AAC"⟩,
          fun _ => 30, fun _ => 0, fun _ => 10⟩
        ⟨0, "mp4", false⟩ ⟨1, []⟩ =
      .ok (⟨1, "mp4", false⟩, ⟨2, [.videoEncode true true]⟩) ∧
    (⟨1, "mp4", false⟩ : FFile) ≠ (⟨0, "mp4", false⟩ : FFile) :=
  ⟨rfl, by decide⟩

/-- Claim C2 as amended: on a non-codec-locked file, PLAYBACK_NORMALIZE
always reserves a fresh temp file and runs exactly one encoder invocation
even when the codecs are already canonical — for VIDEO in H.264/AAC the
invocation stream-copies both streams into the fresh `.mp4`; for AUDIO the
stream-copy branch is dead (the source compares the probe dict against a
string) so the audio is re-encoded into a fresh `.m4a` regardless of its
codec. -/
theorem C2_canonical_still_encodes (env : Env) (f : FFile) (s : St)
    (hlock : f.lock_codec = false) :
    (env.mediatype f.fid = VIDEO →
      va_codecs env f.fid = (some "h264", some "aac") →
      allreencode env f s =
        .ok (⟨s.nextId, "mp4", false⟩, ⟨s.nextId + 1, s.calls ++ [.videoEncode true true]⟩)) ∧
    (env.mediatype f.fid = AUDIO →
      allreencode env f s =
        .ok (⟨s.nextId, "m4a", false⟩, ⟨s.nextId + 1, s.calls ++ [.audioEncode false]⟩)) := by
  constructor
  · intro h hva
    simp [allreencode, hlock, h, video_reencode, hva, reserve_tempfile, run_ffmpeg]
  · intro h
    simp [allreencode, hlock, h, audio_reencode, pyDictEqStr, reserve_tempfile, run_ffmpeg]

/-- Claim C2 witness: the amended theorem at a concrete canonical
H.264/AAC video. -/
theorem C2_canonical_witness :
    allreencode
        ⟨fun _ => .VIDEO, fun _ => some ⟨"h264", "H.264"⟩, fun _ => some ⟨"aac", "AAC"⟩,
          fun _ => 30, fun _ => 0, fun _ => 10⟩
        ⟨2, "mp4", false⟩ ⟨5, []⟩ =
      .ok (⟨5, "mp4", false⟩, ⟨6, [.videoEncode true true]⟩) :=
  (C2_canonical_still_encodes _ _ _ rfl).1 rfl rfl

/-- Claim C3, counterexample: a GIF-kind file whose video codec is already
`gif` passed to FORCE_NORMALIZE is returned unchanged with no encoder
invocation — `forcereencode` delegates the GIF case to `videotogif`, whose
pass-through short-circuit contradicts the claim that FORCE_NORMALIZE never
returns the input handle unchanged. -/
theorem C3_counterexample :
    forcereencode
        ⟨fun _ => .GIF, fun _ => some ⟨"gif", "GIF"⟩, fun _ => none,
          fun _ => 30, fun _ => 0, fun _ => 10⟩
        ⟨0, "gif", false⟩ ⟨1, []⟩ =
      .ok (⟨0, "gif", false⟩, ⟨1, []⟩) := rfl

/-- Claim C3 as amended: FORCE_NORMALIZE always produces a fresh output
handle via one encoder invocation for IMAGE, VIDEO and AUDIO inputs, but
for GIF it delegates to `videotogif`, which returns the input handle
unchanged whenever the existing video codec is already `gif`. -/
theorem C3_fresh_except_gif_passthrough (env : Env) (f : FFile) (s : St) :
    (env.mediatype f.fid = IMAGE ∨ env.mediatype f.fid = VIDEO ∨
        env.mediatype f.fid = AUDIO →
      ∃ out s2, forcereencode env f s = .ok (out, s2) ∧ out.fid = s.nextId ∧
        s2.nextId = s.nextId + 1 ∧ s2.calls.length = s.calls.length + 1) ∧
    (env.mediatype f.fid = GIF →
      forcereencode env f s = videotogif env f s ∧
      ∀ ci, env.vcodecInfo f.fid = some ci → ci.codec_name = "gif" →
        forcereencode env f s = .ok (f, s)) := by
  constructor
  · rintro (h | h | h)
    · exact ⟨⟨s.nextId, "png", false⟩, ⟨s.nextId + 1, s.calls ++ [.forceImage]⟩,
        by simp [forcereencode, h, reserve_tempfile, run_ffmpeg], rfl, rfl, by simp⟩
    · exact ⟨⟨s.nextId, "mp4", false⟩, ⟨s.nextId + 1, s.calls ++ [.forceVideo]⟩,
        by simp [forcereencode, h, reserve_tempfile, run_ffmpeg], rfl, rfl, by simp⟩
    · exact ⟨⟨s.nextId, "m4a", false⟩, ⟨s.nextId + 1, s.calls ++ [.forceAudio]⟩,
        by simp [forcereencode, h, reserve_tempfile, run_ffmpeg], rfl, rfl, by simp⟩
  · intro h
    refine ⟨by simp [forcereencode, h], ?_⟩
    intro ci hci hname
    simp [forcereencode, h, videotogif, hci, hname]

/-- Claim C3 witness: the amended theorem at a concrete IMAGE input —
FORCE_NORMALIZE yields a fresh handle and one more encoder invocation. -/
theorem C3_fresh_witness :
    ∃ out s2,
      forcereencode
          ⟨fun _ => .IMAGE, fun _ => some ⟨"png", "PNG"⟩, fun _ => none,
            fun _ => 30, fun _ => 0, fun _ => 10⟩
          ⟨0, "png", false⟩ ⟨7, []⟩ =
        .ok (out, s2) ∧ out.fid = 7 ∧ s2.nextId = 7 + 1 ∧
        s2.calls.length = List.length ([] : List Invocation) + 1 :=
  (C3_fresh_except_gif_passthrough _ _ _).1 (Or.inl rfl)

/-! ### Claims C7 - C10 -/

/-- Claim C7, counterexample: a file whose codec is the animated-image codec
(`apng`) but whose generic probes succeed (duration 3, frame rate 25, no
`N/A`).  The claim says the frame-table fallback is taken exactly when the
generic value is unavailable AND the codec is apng, so here `get_frame_rate`
should report the generic 25; the code takes the apng path unconditionally
on codec and reports the frame-table value 1 instead. -/
theorem C7_counterexample :
    get_frame_rate ⟨"apng", 25, false, 3, [⟨100, some 100⟩]⟩ = 1 ∧
    FProbe.durationNA ⟨"apng", 25, false, 3, [⟨100, some 100⟩]⟩ = false ∧
    get_frame_rate ⟨"apng", 25, false, 3, [⟨100, some 100⟩]⟩ ≠
      FProbe.r_frame_rate ⟨"apng", 25, false, 3, [⟨100, some 100⟩]⟩ := by
  refine ⟨?_, rfl, ?_⟩ <;>
    norm_num [get_frame_rate, get_apng_framerate, denOr100]

/-- Claim C7 as amended: the two fallbacks are independent — `get_duration`
takes the frame-table path exactly when the generic duration probe reports
`N/A`, with no codec check; `get_frame_rate` takes the frame-table path
exactly when the codec is `apng`, with no availability check.  The computed
values are as claimed: the duration is the sum over the frame table of
`delay / delay_den` with a missing or zero `delay_den` treated as 100, and
the frame rate is the frame count divided by that summed delay. -/
theorem C7_apng_fallback_conditions (p : FProbe) :
    (p.durationNA = true → get_duration p = get_apng_duration p) ∧
    (p.durationNA = false → get_duration p = p.durationVal) ∧
    (p.codec_name = "apng" →
      get_frame_rate p = (p.frames.length : ℚ) / get_apng_duration p) ∧
    (p.codec_name ≠ "apng" → get_frame_rate p = p.r_frame_rate) :=
  ⟨fun h => by simp [get_duration, h],
   fun h => by simp [get_duration, h],
   fun h => by simp [get_frame_rate, h, get_apng_framerate, get_apng_duration],
   fun h => by simp [get_frame_rate, h]⟩

/-- Claim C7 witness: the amended theorem at a concrete non-apng file whose
generic duration probe fails — the frame-table sum is returned anyway. -/
theorem C7_fallback_witness :
    get_duration ⟨"h264", 25, true, 0, [⟨100, some 100⟩]⟩ =
      get_apng_duration ⟨"h264", 25, true, 0, [⟨100, some 100⟩]⟩ :=
  (C7_apng_fallback_conditions _).1 rfl

/-- Python float modulo by a nonzero divisor is zero exactly on integer
multiples of the divisor. -/
theorem pyMod_eq_zero_iff (a b : ℚ) (hb : b ≠ 0) :
    pyMod a b = 0 ↔ ∃ k : ℤ, a = b * k := by
  unfold pyMod
  rw [sub_eq_zero]
  constructor
  · intro h
    exact ⟨⌊a / b⌋, h⟩
  · rintro ⟨k, rfl⟩
    rw [mul_div_cancel_left₀ _ hb, Int.floor_intCast]

/-- The swap test of `get_resolution` (`rot % 90 == 0 and not rot % 180 == 0`)
holds exactly on odd integer multiples of 90. -/
theorem swap_cond_iff (rot : ℚ) :
    (pyMod rot 90 = 0 ∧ ¬ pyMod rot 180 = 0) ↔ ∃ k : ℤ, Odd k ∧ rot = 90 * k := by
  rw [pyMod_eq_zero_iff rot 90 (by norm_num), pyMod_eq_zero_iff rot 180 (by norm_num)]
  constructor
  · rintro ⟨⟨k, rfl⟩, h180⟩
    refine ⟨k, ?_, rfl⟩
    rcases Int.even_or_odd k with he | ho
    · obtain ⟨m, hm⟩ := he
      exact absurd ⟨m, by rw [hm]; push_cast; ring⟩ h180
    · exact ho
  · rintro ⟨k, hodd, rfl⟩
    refine ⟨⟨k, rfl⟩, ?_⟩
    rintro ⟨m, hm⟩
    have hq : (k : ℚ) = 2 * (m : ℚ) := by linarith
    have hz : k = 2 * m := by exact_mod_cast hq
    exact (Int.not_odd_iff_even.mpr ⟨m, by omega⟩) hodd

/-- Claim C8: `get_resolution` swaps the probed width and height exactly when
a rotation tag is present whose value is an odd integer multiple of 90
degrees; when the tag is absent, or the rotation is anything else (every
multiple of 180 included), the raw stream width and height are reported
unchanged. -/
theorem C8_resolution_swap (p : ResProbe) :
    ((∃ rot, p.rotate = some rot ∧ ∃ k : ℤ, Odd k ∧ rot = 90 * k) →
      get_resolution p = [p.height, p.width]) ∧
    (¬ (∃ rot, p.rotate = some rot ∧ ∃ k : ℤ, Odd k ∧ rot = 90 * k) →
      get_resolution p = [p.width, p.height]) := by
  cases hrot : p.rotate with
  | none =>
    refine ⟨?_, fun _ => by simp [get_resolution, hrot]⟩
    rintro ⟨rot, hsome, -⟩
    exact absurd hsome (by simp)
  | some rot =>
    constructor
    · rintro ⟨rot2, hsome, k, hodd, hk⟩
      injection hsome with h2
      subst h2
      simp only [get_resolution, hrot]
      rw [if_pos ((swap_cond_iff rot).mpr ⟨k, hodd, hk⟩)]
    · intro hno
      simp only [get_resolution, hrot]
      rw [if_neg]
      intro hc
      exact hno ⟨rot, rfl, (swap_cond_iff rot).mp hc⟩

/-- Claim C8 witness: a 640x480 stream tagged with rotation 90 is reported
as 480x640. -/
theorem C8_resolution_witness :
    get_resolution ⟨640, 480, some 90⟩ = [480, 640] :=
  (C8_resolution_swap ⟨640, 480, some 90⟩).1 ⟨90, rfl, 1, odd_one, by norm_num⟩

/-- Claim C9: the probe caching is broken in the source.  `is_apng`,
`get_frame_rate` and `get_duration` apply `functools.lru_cache` to an
`async def`, which caches the coroutine object rather than the probe
result: the first call-and-await on a filename runs one probe and returns
its value, but a second call on the same filename gets the exhausted cached
coroutine back and awaiting it raises RuntimeError instead of returning the
first result. -/
theorem C9_lru_cache_async_bug :
    cachedAsyncCall (fun _ => (3 : ℚ)) "file.mp4" ⟨[], 0⟩ =
      (.ok 3, ⟨[("file.mp4", true)], 1⟩) ∧
    cachedAsyncCall (fun _ => (3 : ℚ)) "file.mp4" ⟨[("file.mp4", true)], 1⟩ =
      (.reuseError, ⟨[("file.mp4", true)], 1⟩) :=
  ⟨rfl, rfl⟩

/-- Claim C10: `frame_n` errors exactly when `n < -1` or `n` is at least the
probed frame count; otherwise it extracts frame `n` (with `n = -1` mapped
to the last index, frame count minus one) into a freshly reserved `.mkv`
handle, distinct from the input whenever the input is not the about-to-be
reserved id. -/
theorem C10_frame_n_bounds (env : Env) (video : FFile) (n : Int) (s : St) :
    ((∃ msg, frame_n env video n s = .error msg) ↔
      n < -1 ∨ count_frames env video ≤ n) ∧
    (-1 ≤ n → n < count_frames env video →
      frame_n env video n s =
        .ok (⟨s.nextId, "mkv", false⟩,
          ⟨s.nextId + 1, s.calls ++
            [.frameExtract (if n = -1 then count_frames env video - 1 else n)]⟩) ∧
      (video.fid ≠ s.nextId → (⟨s.nextId, "mkv", false⟩ : FFile) ≠ video)) := by
  constructor
  · constructor
    · rintro ⟨msg, hmsg⟩
      by_contra hcon
      push_neg at hcon
      simp only [frame_n] at hmsg
      rw [if_neg (not_not_intro hcon)] at hmsg
      simp at hmsg
    · intro h
      refine ⟨"Frame " ++ toString n ++ " does not exist.", ?_⟩
      have hc : ¬ (-1 ≤ n ∧ n < count_frames env video) := by omega
      simp only [frame_n]
      rw [if_pos hc]
  · intro h1 h2
    have hif : ¬ ¬ (-1 ≤ n ∧ n < count_frames env video) := not_not_intro ⟨h1, h2⟩
    refine ⟨?_, ?_⟩
    · simp only [frame_n]
      rw [if_neg hif]
      rfl
    · intro hne heq
      exact hne (by rw [← heq])

/-- Claim C10 witness: extracting frame -1 of a 10-frame video selects index
9 into a fresh `.mkv` handle. -/
theorem C10_frame_n_witness :
    frame_n
        ⟨fun _ => .VIDEO, fun _ => some ⟨"h264", "H.264"⟩, fun _ => some ⟨"aac", "AAC"⟩,
          fun _ => 30, fun _ => 0, fun _ => 10⟩
        ⟨0, "mp4", false⟩ (-1) ⟨1, []⟩ =
      .ok (⟨1, "mkv", false⟩, ⟨2, [.frameExtract 9]⟩) :=
  ((C10_frame_n_bounds _ _ _ _).2 (by decide) (by decide)).1

/-! ### Claims C4 - C6 -/

/-- Claim C4: the exclusion is broken in the source.  The guard
`any(att not in ignoreatts for att in m.attachments)` tests the attachment
list as a whole, and the comprehension that follows never consults
`ignoreatts` again, so as soon as one attachment is not excluded, every
non-text attachment url — the explicitly excluded ones included — is
returned.  Here the first attachment is in the exclusion list, yet its url
`urlA` appears in the output, contradicting the claim (and the docstring of
`handlemessagesave`). -/
theorem C4_failing_input :
    attIn ⟨1, "urlA", "a.png"⟩ [⟨1, "urlA", "a.png"⟩] = true ∧
    handlemessagesave ⟨fun _ => .failure, fun _ => false⟩
        (.mk 10 false none [⟨1, "urlA", "a.png"⟩, ⟨2, "urlB", "b.png"⟩] [] [])
        (some [⟨1, "urlA", "a.png"⟩]) = ["urlA", "urlB"] :=
  ⟨rfl, rfl⟩

/-- Claim C5, counterexample: a message with one validated image embed
(url `urlE`) and one attachment (url `urlA`).  The code processes embeds
first, so the candidate list is `[urlE, urlE, urlA]` (the embed url twice:
once from the url check, once from the thumbnail check) — the attachment
candidate comes last, contradicting the claimed order in which every
attachment candidate precedes every embed candidate. -/
theorem C5_counterexample :
    handlemessagesave ⟨fun _ => .failure, fun _ => true⟩
        (.mk 11 false none [⟨1, "urlA", "a.png"⟩] [] [⟨"image", "urlE", "urlT", none⟩])
        none = ["urlE", "urlE", "urlA"] ∧
    "urlE" ≠ "urlA" :=
  ⟨rfl, by decide⟩

/-- Claim C5 as amended: per visited message the extraction order is
embedded media first (validated embeds and resolved gif-host links), then
direct file attachments, then platform stickers — every embed candidate
precedes every attachment candidate, and every attachment candidate
precedes every sticker candidate. -/
theorem C5_per_message_order (env : SEnv) (m0 : Message)
    (ig : Option (List Attachment)) :
    ∃ e a st, handlemessagesave env m0 ig = e ++ a ++ st ∧
      e = embedCandidates env (resolveThread m0) ∧
      (∀ u ∈ a, ∃ att ∈ (resolveThread m0).attachments,
        u = att.url ∧ isTxt att.filename = false) ∧
      (∀ u ∈ st, ∃ sk ∈ (resolveThread m0).stickers,
        u = sk.url ∧ sk.fmt ≠ StickerFormat.lottie) := by
  refine ⟨_, _, _, rfl, rfl, ?_, ?_⟩
  · intro u hu
    simp only [attachmentCandidates.eq_def, List.mem_ite_nil_right, List.mem_map,
      List.mem_filter] at hu
    obtain ⟨-, att, ⟨hmem, hfilt⟩, hurl⟩ := hu
    exact ⟨att, hmem, hurl.symm, by simpa using hfilt⟩
  · intro u hu
    simp only [stickerCandidates, List.mem_map, List.mem_filter] at hu
    obtain ⟨sk, ⟨hmem, hf⟩, rfl⟩ := hu
    exact ⟨sk, hmem, rfl, by simpa using hf⟩

/-- Claim C5 witness: the amended theorem at a concrete message holding one
embed and one attachment. -/
theorem C5_order_witness :
    ∃ e a st,
      handlemessagesave ⟨fun _ => .failure, fun _ => true⟩
          (.mk 11 false none [⟨1, "urlA", "a.png"⟩] [] [⟨"image", "urlE", "urlT", none⟩])
          none = e ++ a ++ st ∧
      e = embedCandidates ⟨fun _ => .failure, fun _ => true⟩
          (resolveThread
            (.mk 11 false none [⟨1, "urlA", "a.png"⟩] [] [⟨"image", "urlE", "urlT", none⟩])) ∧
      (∀ u ∈ a, ∃ att ∈ (resolveThread
          (Message.mk 11 false none [⟨1, "urlA", "a.png"⟩] [] [⟨"image", "urlE", "urlT", none⟩])).attachments,
        u = att.url ∧ isTxt att.filename = false) ∧
      (∀ u ∈ st, ∃ sk ∈ (resolveThread
          (Message.mk 11 false none [⟨1, "urlA", "a.png"⟩] [] [⟨"image", "urlE", "urlT", none⟩])).stickers,
        u = sk.url ∧ sk.fmt ≠ StickerFormat.lottie) :=
  C5_per_message_order _ _ _

/-- The history loop never yields a success that is empty or longer than
`nargs`. -/
theorem searchHistory_some_bounds (env : SEnv) (n : Nat) (hn : 1 ≤ n) :
    ∀ msgs seen out, out.length < n →
      ∀ l, searchHistory env msgs seen out n = some l → l ≠ [] ∧ l.length ≤ n := by
  intro msgs
  induction msgs with
  | nil =>
    intro seen out hlen l h
    simp only [searchHistory] at h
    by_cases he : out.isEmpty
    · rw [if_pos he] at h
      cases h
    · rw [if_neg he] at h
      injection h with h
      subst h
      exact ⟨by simpa [List.isEmpty_iff] using he, le_of_lt hlen⟩
  | cons m rest ih =>
    intro seen out hlen l h
    simp only [searchHistory] at h
    by_cases hs : m.mid ∈ seen
    · rw [if_pos hs] at h
      exact ih seen out hlen l h
    · rw [if_neg hs] at h
      by_cases hfull : n ≤ (out ++ handlemessagesave env m none).length
      · rw [if_pos hfull] at h
        injection h with h
        subst h
        have hlt : ((out ++ handlemessagesave env m none).take n).length = n := by
          rw [List.length_take]
          omega
        constructor
        · intro hnil
          rw [hnil] at hlt
          simp at hlt
          omega
        · omega
      · rw [if_neg hfull] at h
        push_neg at hfull
        exact ih _ _ hfull l h

/-- The history loop returns `False` exactly when it started empty and every
unseen message of the walk yields zero candidates. -/
theorem searchHistory_none_iff (env : SEnv) (n : Nat) (hn : 1 ≤ n) :
    ∀ msgs seen out, out.length < n →
      (searchHistory env msgs seen out n = none ↔
        out = [] ∧ collectHistory env msgs seen = []) := by
  intro msgs
  induction msgs with
  | nil =>
    intro seen out hlen
    simp only [searchHistory, collectHistory]
    by_cases he : out = []
    · simp [he]
    · simp [he, List.isEmpty_iff]
  | cons m rest ih =>
    intro seen out hlen
    simp only [searchHistory, collectHistory]
    by_cases hs : m.mid ∈ seen
    · rw [if_pos hs, if_pos hs]
      exact ih seen out hlen
    · rw [if_neg hs, if_neg hs]
      by_cases hfull : n ≤ (out ++ handlemessagesave env m none).length
      · rw [if_pos hfull]
        constructor
        · intro h
          cases h
        · rintro ⟨rfl, hcol⟩
          have hparts : handlemessagesave env m none = [] ∧
              collectHistory env rest (m.mid :: seen) = [] := by
            simpa using hcol
          rw [hparts.1] at hfull
          simp at hfull
          omega
      · rw [if_neg hfull]
        push_neg at hfull
        rw [ih (m.mid :: seen) _ hfull]
        simp only [List.append_eq_nil]
        tauto

/-- Claim C6: for `count >= 1`, `imagesearch` never returns a success list
that is empty or longer than `count`, and it returns `False` (`none`)
exactly when the entire bounded walk — triggering message, resolved reply
target, then up to 50 unseen history messages — yields zero candidates. -/
theorem C6_imagesearch_bounds (env : SEnv) (ctx : Ctx) (n : Nat)
    (ignore : Option (List Attachment)) (hn : 1 ≤ n) :
    (∀ l, imagesearch env ctx n ignore = some l → l ≠ [] ∧ l.length ≤ n) ∧
    (imagesearch env ctx n ignore = none ↔ allCandidates env ctx ignore = []) := by
  cases href : ctx.message.refResolved with
  | none =>
    simp only [imagesearch, allCandidates, href]
    by_cases h1 : n ≤ (handlemessagesave env ctx.message ignore).length
    · rw [if_pos h1]
      constructor
      · intro l hl
        injection hl with hl
        subst hl
        have hlt : ((handlemessagesave env ctx.message ignore).take n).length = n := by
          rw [List.length_take]
          omega
        constructor
        · intro hnil
          rw [hnil] at hlt
          simp at hlt
          omega
        · omega
      · constructor
        · intro h
          cases h
        · intro h
          rw [List.append_eq_nil] at h
          rw [h.1] at h1
          simp at h1
          omega
    · rw [if_neg h1]
      push_neg at h1
      constructor
      · exact fun l hl => searchHistory_some_bounds env n hn _ _ _ h1 l hl
      · rw [searchHistory_none_iff env n hn _ _ _ h1]
        simp only [List.append_eq_nil]
  | some refMsg =>
    simp only [imagesearch, allCandidates, href]
    by_cases h1 : n ≤ (handlemessagesave env ctx.message ignore).length
    · rw [if_pos h1]
      constructor
      · intro l hl
        injection hl with hl
        subst hl
        have hlt : ((handlemessagesave env ctx.message ignore).take n).length = n := by
          rw [List.length_take]
          omega
        constructor
        · intro hnil
          rw [hnil] at hlt
          simp at hlt
          omega
        · omega
      · constructor
        · intro h
          cases h
        · intro h
          rw [List.append_eq_nil] at h
          rw [h.1] at h1
          simp at h1
          omega
    · rw [if_neg h1]
      push_neg at h1
      by_cases h2 : n ≤ (handlemessagesave env ctx.message ignore ++
          handlemessagesave env refMsg none).length
      · rw [if_pos h2]
        constructor
        · intro l hl
          injection hl with hl
          subst hl
          have hlt : ((handlemessagesave env ctx.message ignore ++
              handlemessagesave env refMsg none).take n).length = n := by
            rw [List.length_take]
            omega
          constructor
          · intro hnil
            rw [hnil] at hlt
            simp at hlt
            omega
          · omega
        · constructor
          · intro h
            cases h
          · intro h
            simp only [List.append_eq_nil] at h
            rw [h.1, h.2.1] at h2
            simp at h2
            omega
      · rw [if_neg h2]
        push_neg at h2
        constructor
        · exact fun l hl => searchHistory_some_bounds env n hn _ _ _ h2 l hl
        · rw [searchHistory_none_iff env n hn _ _ _ h2]
          simp only [List.append_eq_nil, List.append_assoc]
          tauto

/-- Claim C6 witness: the theorem at a concrete empty context with
`count = 1` — the resolver reports `NotFound` exactly because the whole
walk yields nothing. -/
theorem C6_imagesearch_witness :
    imagesearch ⟨fun _ => .failure, fun _ => false⟩
        ⟨.mk 1 false none [] [] [], []⟩ 1 none = none ↔
      allCandidates ⟨fun _ => .failure, fun _ => false⟩
        ⟨.mk 1 false none [] [] [], []⟩ none = [] :=
  (C6_imagesearch_bounds _ _ 1 none (by norm_num)).2

end Mediaforge
